import Mathlib

/-!
Verification of the container-trust-plugin request-to-decision pipeline.

The development shallowly embeds the authorization plugin's `AuthZReq`
handler (plugin.go) together with its pure helpers
(`isValidHostname`, `splitReposName`, `isReferenceFullyQualified`,
`qualifyUnqualifiedReference`, `substituteReferenceName`) and the
pull-request URI pattern.  External collaborators (the engine's registry
list, the policy evaluator, the pull/retag client) are modelled as
oracles supplied to the handler; the handler additionally returns the
ordered list of collaborator calls it performed, so that claims about
"no side effects" or "pull before retag" are statable.
-/

/-! ### List-of-characters helpers -/

/-- Whether the first list is a prefix of the second (used to model the
literal pieces of the Go pull regular expression). -/
def hasPrefixL : List Char → List Char → Bool
  | [], _ => true
  | _ :: _, [] => false
  | p :: ps, c :: cs => p == c && hasPrefixL ps cs

/-- Split a character list at the first occurrence of `c`; `none` when `c`
does not occur.  The first component is the part strictly before `c`, the
second the part strictly after. -/
def splitFirst (c : Char) : List Char → Option (List Char × List Char)
  | [] => none
  | x :: rest =>
    if x == c then some ([], rest)
    else (splitFirst c rest).map (fun p => (x :: p.1, p.2))

/-- Scan a reversed repository string for a tag separator: the last `:` of
the original string counts as a tag separator only when no `/` follows it.
On the reversed list this returns `(reversed tag, reversed base)` at the
first `:` seen before any `/`. -/
def tagSplitRev : List Char → Option (List Char × List Char)
  | [] => none
  | c :: rest =>
    if c == ':' then some ([], rest)
    else if c == '/' then none
    else (tagSplitRev rest).map (fun p => (c :: p.1, p.2))

/-! ### Reference grammar

Modelled from the spec: the Reference Grammar component (spec section 4.2,
`parse`, `withTag`, `withDigest`, `withDefaultTag`, `isNameOnly`) lives in
vendored dependencies that are not part of this repository's sources, so
it is embedded here following the spec's contract: a reference is a
repository name together with at most one of a tag or a digest; digest
tokens follow the `algorithm:hex` content-digest grammar; malformed names,
tags and digests are parse errors. -/

/-- Characters permitted in a repository name component (lowercase
letters, digits, and the separators `.` `_` `-`, plus `:` so that a
registry host with a port can occur as the leading path segment). -/
def allowedNameChar (c : Char) : Bool :=
  c.isLower || c.isDigit || c == '.' || c == '_' || c == '-' || c == ':'

/-- Component-wise scan of a repository name: every `/`-separated
component must be non-empty and consist of allowed characters.  The
accumulator records whether the current component has at least one
character so far. -/
def goComp : List Char → Bool → Bool
  | [], seen => seen
  | c :: rest, seen =>
    if c == '/' then seen && goComp rest false
    else allowedNameChar c && goComp rest true

/-- Modelled from the spec: validity of a repository name (possibly
carrying a leading registry-host segment), as consumed by the vendored
`reference.WithName` / `reference.ParseNamed`. -/
def validName (s : String) : Bool :=
  goComp s.toList false

/-- Modelled from the spec: validity of a tag token (non-empty, at most
128 characters drawn from letters, digits, `_`, `.`, `-`, not starting
with `.` or `-`). -/
def validTag (t : String) : Bool :=
  let cs := t.toList
  (!cs.isEmpty) && cs.length ≤ 128 &&
    cs.all (fun c => c.isAlphanum || c == '_' || c == '.' || c == '-') &&
    (match cs with
     | [] => false
     | c :: _ => c.isAlphanum || c == '_')

/-- Hexadecimal digit (both cases), as in the content-digest grammar. -/
def isHexChar (c : Char) : Bool :=
  c.isDigit || ('a' ≤ c && c ≤ 'f') || ('A' ≤ c && c ≤ 'F')

/-- Modelled from the spec: the `algorithm:hex` content-digest grammar of
`digest.ParseDigest` (vendored, outside this repository's sources).  A
digest splits at the first `:` into a supported algorithm name and a hex
string of the algorithm's length; anything else fails to parse.  Returns
the `(algorithm, hex)` pair on success. -/
def parseDigest (s : String) : Option (String × String) :=
  match splitFirst ':' s.toList with
  | none => none
  | some (a, h) =>
    let alg := String.mk a
    if h.all isHexChar &&
        ((alg == "sha256" && h.length == 64) ||
         (alg == "sha384" && h.length == 96) ||
         (alg == "sha512" && h.length == 128)) then
      some (alg, String.mk h)
    else none

/-- A string is a well-formed content digest when it parses. -/
def validDigest (s : String) : Bool :=
  (parseDigest s).isSome

/-- The tag-or-digest decoration of a reference: at most one of a tag or
a digest is set. -/
inductive RefSuffix where
  | bare : RefSuffix
  | tagged : String → RefSuffix
  | digested : String → RefSuffix
deriving DecidableEq

/-- An image reference: repository name (possibly host-qualified) plus
its decoration. -/
structure NamedRef where
  name : String
  suffix : RefSuffix
deriving DecidableEq

/-- Modelled from the spec: `reference.WithName` — build a bare reference
from a repository name, validating the name grammar. -/
def withName (s : String) : Except String NamedRef :=
  if validName s then .ok ⟨s, .bare⟩ else .error "invalid reference format"

/-- Modelled from the spec: `reference.WithTag` — decorate with a tag,
validating the tag grammar; any previous decoration is replaced. -/
def withTag (ref : NamedRef) (t : String) : Except String NamedRef :=
  if validTag t then .ok ⟨ref.name, .tagged t⟩ else .error "invalid tag format"

/-- Modelled from the spec: `reference.WithDigest` — decorate with a
digest, validating the digest grammar; any previous decoration is
replaced. -/
def withDigest (ref : NamedRef) (d : String) : Except String NamedRef :=
  if validDigest d then .ok ⟨ref.name, .digested d⟩ else .error "invalid digest format"

/-- Modelled from the spec: `reference.IsNameOnly` — the reference carries
neither tag nor digest. -/
def isNameOnly (ref : NamedRef) : Bool :=
  match ref.suffix with
  | .bare => true
  | _ => false

/-- Modelled from the spec: `reference.WithDefaultTag` — apply the default
tag `latest` to a name-only reference, and leave any other reference
unchanged. -/
def withDefaultTag (ref : NamedRef) : NamedRef :=
  if isNameOnly ref then ⟨ref.name, .tagged "latest"⟩ else ref

/-- Modelled from the spec: `Named.String()` — print a reference as
`name`, `name:tag` or `name@digest`. -/
def refString (ref : NamedRef) : String :=
  match ref.suffix with
  | .bare => ref.name
  | .tagged t => ref.name ++ ":" ++ t
  | .digested d => ref.name ++ "@" ++ d

/-- Modelled from the spec: `reference.ParseNamed` — parse
`name[:tag][@digest]`.  The digest part (after the first `@`) must be a
well-formed content digest; the tag part (after a final `:` not followed
by a `/`) must be a well-formed tag; the remaining name must satisfy the
name grammar.  When both a tag and a digest are present the digest wins
and the tag is dropped (it is still validated). -/
def parseNamed (s : String) : Except String NamedRef :=
  let cs := s.toList
  match splitFirst '@' cs with
  | some (n, d) =>
    if !validDigest (String.mk d) then .error "invalid reference format"
    else
      match tagSplitRev n.reverse with
      | some (tRev, nRev) =>
        if validName (String.mk nRev.reverse) && validTag (String.mk tRev.reverse) then
          .ok ⟨String.mk nRev.reverse, .digested (String.mk d)⟩
        else .error "invalid reference format"
      | none =>
        if validName (String.mk n) then .ok ⟨String.mk n, .digested (String.mk d)⟩
        else .error "invalid reference format"
  | none =>
    match tagSplitRev cs.reverse with
    | some (tRev, nRev) =>
      if validName (String.mk nRev.reverse) && validTag (String.mk tRev.reverse) then
        .ok ⟨String.mk nRev.reverse, .tagged (String.mk tRev.reverse)⟩
      else .error "invalid reference format"
    | none =>
      if validName s then .ok ⟨s, .bare⟩ else .error "invalid reference format"

/-! ### Percent-decoding -/

/-- Numeric value of a hexadecimal digit character. -/
def hexVal (c : Char) : Option Nat :=
  if c.isDigit then some (c.toNat - 48)
  else if 'a' ≤ c && c ≤ 'f' then some (c.toNat - 87)
  else if 'A' ≤ c && c ≤ 'F' then some (c.toNat - 55)
  else none

/-- Modelled from the spec: the percent-decoding step
(`url.QueryUnescape`, standard library, outside this repository's
sources).  `%XY` with two hex digits decodes to the corresponding
character, `+` decodes to a space, a malformed or truncated escape is a
decoding failure. -/
def unescapeList : List Char → Option (List Char)
  | [] => some []
  | '%' :: a :: b :: rest =>
    match hexVal a, hexVal b with
    | some x, some y => (unescapeList rest).map (fun r => Char.ofNat (16 * x + y) :: r)
    | _, _ => none
  | '%' :: _ => none
  | '+' :: rest => (unescapeList rest).map (fun r => ' ' :: r)
  | c :: rest => (unescapeList rest).map (fun r => c :: r)

/-- Percent-decoding on strings. -/
def queryUnescape (s : String) : Option String :=
  (unescapeList s.toList).map String.mk

/-! ### The pull-endpoint pattern

The plugin recognizes pulls with the Go regular expression
`/images/create(\?fromImage=([^&]*)(&tag=(.*)?)?)?$` (plugin.go, package
variable `pullRegExp`).  The functions below model its matching and
submatch-extraction semantics directly: a match is an occurrence of
`/images/create` extending to the end of the string, optionally through
`?fromImage=`, a `&`-free group, and optionally `&tag=` followed by the
rest of the string (which, as `.*`, may not contain a newline).  The
leftmost viable occurrence wins, as in Go's regexp engine. -/

/-- Try to complete a match at the character list following
`/images/create`; on success return the `fromImage` and `tag` submatches
(empty strings for non-participating groups, as Go reports them). -/
def pullTail (cs : List Char) : Option (String × String) :=
  if cs.isEmpty then some ("", "")
  else if hasPrefixL "?fromImage=".toList cs then
    let q := cs.drop 11
    let a := q.takeWhile (fun c => !(c == '&'))
    let b := q.dropWhile (fun c => !(c == '&'))
    if b.isEmpty then some (String.mk a, "")
    else if hasPrefixL "&tag=".toList b && (b.drop 5).all (fun c => !(c == '\n')) then
      some (String.mk a, String.mk (b.drop 5))
    else none
  else none

/-- Scan for the leftmost occurrence of `/images/create` whose tail
completes a match of the pull pattern. -/
def findPullMatch : List Char → Option (String × String)
  | [] => none
  | c :: rest =>
    if hasPrefixL "/images/create".toList (c :: rest) then
      match pullTail ((c :: rest).drop 14) with
      | some r => some r
      | none => findPullMatch rest
    else findPullMatch rest

/-- `pullRegExp.FindStringSubmatch`: the `(fromImage, tag)` submatch pair,
or `none` when the pattern does not match. -/
def pullFindSubmatch (s : String) : Option (String × String) :=
  findPullMatch s.toList

/-- `pullRegExp.MatchString`. -/
def pullMatchString (s : String) : Bool :=
  (pullFindSubmatch s).isSome

/-! ### Registry qualification (plugin.go) -/

/-- `isValidHostname` (plugin.go): non-empty, free of `/`, and containing
a `.`, a `:`, or equal to `localhost`. -/
def isValidHostname (hostname : String) : Bool :=
  hostname != "" && !(hostname.toList.contains '/') &&
    (hostname.toList.contains '.' || hostname.toList.contains ':' ||
      hostname == "localhost")

/-- Modelled from the spec: `distreference.SplitHostname` (vendored,
outside this repository's sources) — split a repository name at the first
`/` into a candidate host segment and the remainder; a name without `/`
has an empty host. -/
def splitHostname (name : String) : String × String :=
  match splitFirst '/' name.toList with
  | none => ("", name)
  | some (a, b) => (String.mk a, String.mk b)

/-- `splitReposName` (plugin.go): break a reference into an index name and
a remote name.  When the candidate host segment is not a valid hostname
the index name is empty and the remote name is the whole reference;
otherwise the remote name is rebuilt from the remainder (which can fail
name validation). -/
def splitReposName (ref : NamedRef) : String × Except String NamedRef :=
  if isValidHostname (splitHostname ref.name).1 then
    ((splitHostname ref.name).1, withName (splitHostname ref.name).2)
  else
    ("", .ok ref)

/-- `isReferenceFullyQualified` (plugin.go): the reference carries a
prepended index name. -/
def isReferenceFullyQualified (reposName : NamedRef) : Bool :=
  (splitReposName reposName).1 != ""

/-- `substituteReferenceName` (plugin.go): rebuild the reference with its
name part substituted for `reposName`, preserving a tag or digest
decoration. -/
def substituteReferenceName (ref : NamedRef) (reposName : String) : Except String NamedRef :=
  match withName reposName with
  | .error e => .error e
  | .ok reposNameRef =>
    match ref.suffix with
    | .tagged t => withTag reposNameRef t
    | .digested d => withDigest reposNameRef d
    | .bare => .ok reposNameRef

/-- `qualifyUnqualifiedReference` (plugin.go): reject an invalid index
hostname; split the reference; on a split error propagate it; when the
reference has no index name, prepend `indexName/`; otherwise return the
reference unchanged. -/
def qualifyUnqualifiedReference (ref : NamedRef) (indexName : String) : Except String NamedRef :=
  if !isValidHostname indexName then
    .error ("Invalid hostname \"" ++ indexName ++ "\"")
  else
    match splitReposName ref with
    | (_, .error e) => .error e
    | (orig, .ok remoteName) =>
      if orig == "" then
        substituteReferenceName ref (indexName ++ "/" ++ remoteName.name)
      else
        .ok ref

/-! ### The authorization handler -/

/-- Plugin configuration (`conf` in plugin.go). -/
structure conf where
  Enabled : Bool
  AutoPull : Bool
deriving DecidableEq

/-- The intercepted request (`authorization.Request` fields used by the
plugin). -/
structure AuthZRequest where
  RequestMethod : String
  RequestURI : String
deriving DecidableEq

/-- The verdict (`authorization.Response` fields used by the plugin); Go
zero values are the empty string. -/
structure AuthZResponse where
  Allow : Bool
  Msg : String
  Err : String
deriving DecidableEq

/-- Allow with no message (the `allow:` label). -/
def allowResp : AuthZResponse := ⟨true, "", ""⟩

/-- Deny through the `Err` field. -/
def mkErr (e : String) : AuthZResponse := ⟨false, "", e⟩

/-- Deny through the `Msg` field (the `noallow:` label). -/
def denyMsg (m : String) : AuthZResponse := ⟨false, m, ""⟩

/-- One collaborator call performed while handling a request. -/
inductive Event where
  | getRegistries : Event
  | evaluate : NamedRef → Event
  | fetchDigest : NamedRef → Event
  | pull : String → Event
  | readStream : String → Event
  | tag : String → String → Event
deriving DecidableEq

/-- Results of the external collaborators, supplied per request:
the engine's registry list (`getAdditionalDockerRegistries`), the policy
evaluation steps (`IsRunningImageAllowed`; manifest retrieval and digest
computation), and the engine control-plane client (`ImagePull`, reading
the pull stream, `ImageTag`). -/
structure Oracles where
  registries : Except String (List String)
  isAllowed : NamedRef → Except String Bool
  manifestDigest : NamedRef → Except String String
  imagePull : String → Except String Unit
  readAll : String → Except String Unit
  imageTag : String → String → Except String Unit

/-- Classification of the tag-or-digest token (plugin.go lines 107-119):
if it parses as a digest, attach it as a digest and record pull-by-digest;
otherwise attach it as a tag. -/
def attachSuffix (ref0 : NamedRef) (res4 : String) : Except String (NamedRef × Bool) :=
  match parseDigest res4 with
  | some _ => (withDigest ref0 res4).map (fun r => (r, true))
  | none => (withTag ref0 res4).map (fun r => (r, false))

/-- The qualification step (plugin.go lines 141-161): deny when the
reference is unqualified and more than one registry is configured;
otherwise, when the first registry is non-empty and not `docker.io`,
qualify the reference with it. -/
def qualifyPhase (registries : List String) (ref : NamedRef) : Except String NamedRef :=
  if isReferenceFullyQualified ref = false ∧ 1 < registries.length then
    .error "can't check signatures, please pull with a fully qualified image name"
  else
    let defaultRegistry := match registries with
      | [] => ""
      | r :: _ => r
    if defaultRegistry ≠ "" ∧ defaultRegistry ≠ "docker.io" then
      qualifyUnqualifiedReference ref defaultRegistry
    else
      .ok ref

/-- The reconciliation step (plugin.go lines 194-234), entered once the
policy evaluation produced `allowed` and the manifest digest `dgst`.
Returns the verdict and the pull/retag collaborator calls performed. -/
def reconcile (cfg : conf) (o : Oracles) (res2 res4 : String) (isByDigest : Bool)
    (allowed : Bool) (dgst : String) : AuthZResponse × List Event :=
  if allowed then
    if isByDigest then
      if res4 = dgst then (allowResp, [])
      else (mkErr ("digests mismatch, provided " ++ res4 ++ ", computed " ++ dgst), [])
    else
      if cfg.AutoPull then
        match parseNamed (res2 ++ "@" ++ dgst) with
        | .error e => (mkErr e, [])
        | .ok newRef =>
          match o.imagePull (refString newRef) with
          | .error e => (mkErr e, [.pull (refString newRef)])
          | .ok _ =>
            match o.readAll (refString newRef) with
            | .error e => (mkErr e, [.pull (refString newRef), .readStream (refString newRef)])
            | .ok _ =>
              match o.imageTag (refString newRef) (res2 ++ ":" ++ res4) with
              | .error e =>
                (mkErr e,
                  [.pull (refString newRef), .readStream (refString newRef),
                   .tag (refString newRef) (res2 ++ ":" ++ res4)])
              | .ok _ =>
                (allowResp,
                  [.pull (refString newRef), .readStream (refString newRef),
                   .tag (refString newRef) (res2 ++ ":" ++ res4)])
      else
        (mkErr ("image is allowed but can't pull by tag. Pull the image with 'docker pull "
            ++ res2 ++ "@" ++ dgst ++ "' and tag it with 'docker tag "
            ++ res2 ++ "@" ++ dgst ++ " " ++ res2 ++ ":" ++ res4 ++ "'"), [])
  else
    (denyMsg "image isn't allowed", [])

/-- The policy-evaluation step (plugin.go lines 166-193): ask whether the
image is allowed, then fetch its manifest digest; either failure denies
with the underlying error. -/
def evalPhase (cfg : conf) (o : Oracles) (res2 res4 : String) (isByDigest : Bool)
    (ref : NamedRef) : AuthZResponse × List Event :=
  match o.isAllowed ref with
  | .error e => (mkErr e, [])
  | .ok allowed =>
    match o.manifestDigest ref with
    | .error e => (mkErr e, [.fetchDigest ref])
    | .ok dgst =>
      ((reconcile cfg o res2 res4 isByDigest allowed dgst).1,
        .fetchDigest ref :: (reconcile cfg o res2 res4 isByDigest allowed dgst).2)

/-- `AuthZReq` (plugin.go): the full request-to-decision pipeline,
returning the verdict together with the ordered collaborator calls. -/
def authZReq (cfg : conf) (o : Oracles) (req : AuthZRequest) : AuthZResponse × List Event :=
  if req.RequestMethod = "POST" ∧ pullMatchString req.RequestURI = true then
    match queryUnescape req.RequestURI with
    | none => (mkErr "invalid URL escape", [])
    | some decoded =>
      match pullFindSubmatch decoded with
      | none => (mkErr "unable to find repository name and reference", [])
      | some (res2, res4) =>
        match parseNamed res2 with
        | .error e => (mkErr e, [])
        | .ok ref0 =>
          if res4 = "" then
            (mkErr "unable to verify all tags for the given image", [])
          else
            match attachSuffix ref0 res4 with
            | .error e => (mkErr e, [])
            | .ok (ref1, isByDigest) =>
              let ref2 := if isNameOnly ref1 then withDefaultTag ref1 else ref1
              match o.registries with
              | .error e => (mkErr e, [.getRegistries])
              | .ok registries =>
                match qualifyPhase registries ref2 with
                | .error e => (mkErr e, [.getRegistries])
                | .ok ref =>
                  ((evalPhase cfg o res2 res4 isByDigest ref).1,
                    .getRegistries :: .evaluate ref ::
                      (evalPhase cfg o res2 res4 isByDigest ref).2)
  else
    (allowResp, [])

/-! ### Sample configurations and oracles for concrete runs -/

/-- A sha256 digest used in concrete runs. -/
def shaA : String := "sha256:aaaaaaaaaaaaaaaaaaaaaaaaaaaaaaaaaaaaaaaaaaaaaaaaaaaaaaaaaaaaaaaa"

/-- A second, different sha256 digest used in concrete runs. -/
def shaB : String := "sha256:bbbbbbbbbbbbbbbbbbbbbbbbbbbbbbbbbbbbbbbbbbbbbbbbbbbbbbbbbbbbbbbb"

/-- Configuration with auto-pull enabled. -/
def cfgAuto : conf := ⟨true, true⟩

/-- Configuration with auto-pull disabled. -/
def cfgManual : conf := ⟨true, false⟩

/-- Oracles: no extra registries, policy allows, manifest digest `shaA`,
pull/read/tag all succeed. -/
def oAllowA : Oracles :=
  ⟨.ok [], fun _ => .ok true, fun _ => .ok shaA,
   fun _ => .ok (), fun _ => .ok (), fun _ _ => .ok ()⟩

/-- As `oAllowA` but the computed manifest digest is `shaB`. -/
def oAllowB : Oracles :=
  ⟨.ok [], fun _ => .ok true, fun _ => .ok shaB,
   fun _ => .ok (), fun _ => .ok (), fun _ _ => .ok ()⟩

/-- As `oAllowA` but the policy evaluator reports not allowed. -/
def oDeny : Oracles :=
  ⟨.ok [], fun _ => .ok false, fun _ => .ok shaA,
   fun _ => .ok (), fun _ => .ok (), fun _ _ => .ok ()⟩

/-- Two configured registries; the policy evaluator would allow. -/
def oTwoRegs : Oracles :=
  ⟨.ok ["r1.example.com", "r2.example.com"], fun _ => .ok true, fun _ => .ok shaA,
   fun _ => .ok (), fun _ => .ok (), fun _ _ => .ok ()⟩

/-- A single configured registry `redhat.io`; the policy evaluator allows. -/
def oRedhat : Oracles :=
  ⟨.ok ["redhat.io"], fun _ => .ok true, fun _ => .ok shaA,
   fun _ => .ok (), fun _ => .ok (), fun _ _ => .ok ()⟩

/-- The registry-list fetch fails. -/
def oRegFail : Oracles :=
  ⟨.error "engine info unavailable", fun _ => .ok true, fun _ => .ok shaA,
   fun _ => .ok (), fun _ => .ok (), fun _ _ => .ok ()⟩

/-! ### Helper lemmas -/

theorem toList_mk (l : List Char) : (String.mk l).toList = l := rfl

theorem splitFirst_eq (c : Char) :
    ∀ (cs a b : List Char), splitFirst c cs = some (a, b) → cs = a ++ c :: b := by
  intro cs
  induction cs with
  | nil => intro a b h; simp [splitFirst] at h
  | cons x rest ih =>
    intro a b h
    simp only [splitFirst] at h
    by_cases hx : (x == c) = true
    · rw [if_pos hx] at h
      obtain ⟨ha, hb⟩ := Prod.mk.inj (Option.some.inj h)
      subst ha; subst hb
      simp [beq_iff_eq.mp hx]
    · rw [if_neg hx] at h
      cases hsf : splitFirst c rest with
      | none => rw [hsf] at h; exact absurd h (by simp)
      | some p =>
        rw [hsf] at h
        obtain ⟨ha, hb⟩ := Prod.mk.inj (Option.some.inj h)
        subst ha; subst hb
        have hrec := ih p.1 p.2 (by rw [hsf])
        simp [hrec]

theorem goComp_tail (b : List Char) :
    ∀ (a : List Char) (s : Bool), goComp (a ++ '/' :: b) s = true → goComp b false = true := by
  intro a
  induction a with
  | nil =>
    intro s h
    simp only [List.nil_append, goComp] at h
    rw [if_pos (by rfl)] at h
    exact (by simpa using h : s = true ∧ goComp b false = true).2
  | cons x a' ih =>
    intro s h
    simp only [List.cons_append, goComp] at h
    by_cases hx : (x == '/') = true
    · rw [if_pos hx] at h
      exact ih false (by simpa using h :
        s = true ∧ goComp (a' ++ '/' :: b) false = true).2
    · rw [if_neg hx] at h
      exact ih true (by simpa using h :
        allowedNameChar x = true ∧ goComp (a' ++ '/' :: b) true = true).2

theorem authZReq_run (cfg : conf) (o : Oracles) (uri decoded res2 res4 : String)
    (ref0 ref1 : NamedRef) (b : Bool) (regs : List String) (ref : NamedRef)
    (hmatch : pullMatchString uri = true)
    (hdec : queryUnescape uri = some decoded)
    (hfind : pullFindSubmatch decoded = some (res2, res4))
    (hparse : parseNamed res2 = .ok ref0)
    (hres4 : res4 ≠ "")
    (hatt : attachSuffix ref0 res4 = .ok (ref1, b))
    (hregs : o.registries = .ok regs)
    (hqual : qualifyPhase regs (if isNameOnly ref1 then withDefaultTag ref1 else ref1) = .ok ref) :
    authZReq cfg o ⟨"POST", uri⟩ =
      ((evalPhase cfg o res2 res4 b ref).1,
        .getRegistries :: .evaluate ref :: (evalPhase cfg o res2 res4 b ref).2) := by
  unfold authZReq
  simp [hmatch, hdec, hfind, hparse, hres4, hatt, hregs, hqual]

/-! ### Claims -/

/-- Claim C5 (confirmed): for every intercepted request whose method is
not POST or whose URI does not match the pull-endpoint shape, the verdict
is Allow and no collaborator call is made. -/
theorem c5_passthrough (cfg : conf) (o : Oracles) (req : AuthZRequest)
    (h : req.RequestMethod ≠ "POST" ∨ pullMatchString req.RequestURI = false) :
    authZReq cfg o req = (allowResp, []) := by
  unfold authZReq
  rw [if_neg]
  rintro ⟨h1, h2⟩
  rcases h with h | h
  · exact h h1
  · rw [h] at h2; exact absurd h2 (by simp)

/-- Witness for C5: a GET request to the pull endpoint passes through
with no collaborator calls. -/
theorem c5_witness :
    ("GET" : String) ≠ "POST" ∧
    authZReq cfgManual oAllowA ⟨"GET", "/images/create?fromImage=foo&tag=v1"⟩ =
      (allowResp, []) :=
  ⟨by decide, c5_passthrough cfgManual oAllowA _ (Or.inl (by decide))⟩

/-- Claim C1 (confirmed): for every recognized pull request that specified
a digest, when the policy evaluation succeeds reporting allowed with some
manifest digest: a caller-supplied digest token equal to the computed
manifest digest gives Allow, an unequal one gives Deny with a mismatch
message naming both digests. -/
theorem c1_digest_consistency (cfg : conf) (o : Oracles)
    (uri decoded res2 res4 : String) (ref0 ref1 : NamedRef)
    (regs : List String) (ref : NamedRef) (dgst : String)
    (hmatch : pullMatchString uri = true)
    (hdec : queryUnescape uri = some decoded)
    (hfind : pullFindSubmatch decoded = some (res2, res4))
    (hparse : parseNamed res2 = .ok ref0)
    (hres4 : res4 ≠ "")
    (hatt : attachSuffix ref0 res4 = .ok (ref1, true))
    (hregs : o.registries = .ok regs)
    (hqual : qualifyPhase regs (if isNameOnly ref1 then withDefaultTag ref1 else ref1) = .ok ref)
    (hall : o.isAllowed ref = .ok true)
    (hd : o.manifestDigest ref = .ok dgst) :
    (res4 = dgst →
      authZReq cfg o ⟨"POST", uri⟩ =
        (allowResp, [.getRegistries, .evaluate ref, .fetchDigest ref])) ∧
    (res4 ≠ dgst →
      authZReq cfg o ⟨"POST", uri⟩ =
        (mkErr ("digests mismatch, provided " ++ res4 ++ ", computed " ++ dgst),
          [.getRegistries, .evaluate ref, .fetchDigest ref])) := by
  have hrun := authZReq_run cfg o uri decoded res2 res4 ref0 ref1 true regs ref
    hmatch hdec hfind hparse hres4 hatt hregs hqual
  constructor
  · intro he
    rw [hrun]
    unfold evalPhase reconcile
    simp [hall, hd, he]
  · intro he
    rw [hrun]
    unfold evalPhase reconcile
    simp [hall, hd, he]

/-- Witness for C1: pulling `foo@shaA` is allowed when the computed digest
is `shaA` and denied with the mismatch message when it is `shaB`. -/
theorem c1_witness :
    authZReq cfgManual oAllowA ⟨"POST", "/images/create?fromImage=foo&tag=" ++ shaA⟩ =
      (allowResp,
        [.getRegistries, .evaluate ⟨"foo", .digested shaA⟩, .fetchDigest ⟨"foo", .digested shaA⟩]) ∧
    authZReq cfgManual oAllowB ⟨"POST", "/images/create?fromImage=foo&tag=" ++ shaA⟩ =
      (mkErr ("digests mismatch, provided " ++ shaA ++ ", computed " ++ shaB),
        [.getRegistries, .evaluate ⟨"foo", .digested shaA⟩, .fetchDigest ⟨"foo", .digested shaA⟩]) :=
  ⟨(c1_digest_consistency cfgManual oAllowA
      ("/images/create?fromImage=foo&tag=" ++ shaA)
      ("/images/create?fromImage=foo&tag=" ++ shaA) "foo" shaA ⟨"foo", .bare⟩
      ⟨"foo", .digested shaA⟩ [] ⟨"foo", .digested shaA⟩ shaA
      rfl rfl rfl rfl (by decide) rfl rfl rfl rfl rfl).1 rfl,
   (c1_digest_consistency cfgManual oAllowB
      ("/images/create?fromImage=foo&tag=" ++ shaA)
      ("/images/create?fromImage=foo&tag=" ++ shaA) "foo" shaA ⟨"foo", .bare⟩
      ⟨"foo", .digested shaA⟩ [] ⟨"foo", .digested shaA⟩ shaB
      rfl rfl rfl rfl (by decide) rfl rfl rfl rfl rfl).2 (by decide)⟩

/-- Claim C4 (confirmed): for every recognized pull request, whenever the
policy evaluation succeeds (both the allowed verdict and the manifest
digest are produced) and reports allowed = false, the verdict is Deny with
the message `image isn't allowed`, independent of tag/digest kind and of
the AutoPull setting. -/
theorem c4_policy_denied (cfg : conf) (o : Oracles)
    (uri decoded res2 res4 : String) (ref0 ref1 : NamedRef) (b : Bool)
    (regs : List String) (ref : NamedRef) (dgst : String)
    (hmatch : pullMatchString uri = true)
    (hdec : queryUnescape uri = some decoded)
    (hfind : pullFindSubmatch decoded = some (res2, res4))
    (hparse : parseNamed res2 = .ok ref0)
    (hres4 : res4 ≠ "")
    (hatt : attachSuffix ref0 res4 = .ok (ref1, b))
    (hregs : o.registries = .ok regs)
    (hqual : qualifyPhase regs (if isNameOnly ref1 then withDefaultTag ref1 else ref1) = .ok ref)
    (hall : o.isAllowed ref = .ok false)
    (hd : o.manifestDigest ref = .ok dgst) :
    authZReq cfg o ⟨"POST", uri⟩ =
      (denyMsg "image isn't allowed", [.getRegistries, .evaluate ref, .fetchDigest ref]) := by
  rw [authZReq_run cfg o uri decoded res2 res4 ref0 ref1 b regs ref
    hmatch hdec hfind hparse hres4 hatt hregs hqual]
  unfold evalPhase reconcile
  simp [hall, hd]

/-- Witness for C4: a tag pull with auto-pull enabled is denied with
`image isn't allowed` when the policy evaluator reports not allowed. -/
theorem c4_witness :
    authZReq cfgAuto oDeny ⟨"POST", "/images/create?fromImage=foo&tag=v1"⟩ =
      (denyMsg "image isn't allowed",
        [.getRegistries, .evaluate ⟨"foo", .tagged "v1"⟩, .fetchDigest ⟨"foo", .tagged "v1"⟩]) :=
  c4_policy_denied cfgAuto oDeny "/images/create?fromImage=foo&tag=v1"
    "/images/create?fromImage=foo&tag=v1" "foo" "v1" ⟨"foo", .bare⟩ ⟨"foo", .tagged "v1"⟩ false
    [] ⟨"foo", .tagged "v1"⟩ shaA rfl rfl rfl rfl (by decide) rfl rfl rfl rfl rfl

/-- Claim C2 (confirmed): for every recognized pull request whose
reference is not fully qualified, if more than one registry is configured,
the verdict is Deny with the ambiguity message and the policy evaluator is
never invoked (the trace stops at the registry fetch). -/
theorem c2_ambiguous_unqualified (cfg : conf) (o : Oracles)
    (uri decoded res2 res4 : String) (ref0 ref1 : NamedRef) (b : Bool)
    (regs : List String)
    (hmatch : pullMatchString uri = true)
    (hdec : queryUnescape uri = some decoded)
    (hfind : pullFindSubmatch decoded = some (res2, res4))
    (hparse : parseNamed res2 = .ok ref0)
    (hres4 : res4 ≠ "")
    (hatt : attachSuffix ref0 res4 = .ok (ref1, b))
    (hregs : o.registries = .ok regs)
    (hlen : 1 < regs.length)
    (hnq : isReferenceFullyQualified
      (if isNameOnly ref1 then withDefaultTag ref1 else ref1) = false) :
    authZReq cfg o ⟨"POST", uri⟩ =
      (mkErr "can't check signatures, please pull with a fully qualified image name",
        [.getRegistries]) := by
  have hq : qualifyPhase regs (if isNameOnly ref1 then withDefaultTag ref1 else ref1) =
      .error "can't check signatures, please pull with a fully qualified image name" := by
    unfold qualifyPhase
    rw [if_pos ⟨hnq, hlen⟩]
  unfold authZReq
  simp [hmatch, hdec, hfind, hparse, hres4, hatt, hregs, hq]

/-- Witness for C2: with registries `r1.example.com` and `r2.example.com`
an unqualified pull of `library/foo:latest` is denied with the ambiguity
message even though the policy evaluator would allow it. -/
theorem c2_witness :
    1 < (["r1.example.com", "r2.example.com"] : List String).length ∧
    authZReq cfgManual oTwoRegs ⟨"POST", "/images/create?fromImage=library/foo&tag=latest"⟩ =
      (mkErr "can't check signatures, please pull with a fully qualified image name",
        [.getRegistries]) :=
  ⟨by decide,
   c2_ambiguous_unqualified cfgManual oTwoRegs
     "/images/create?fromImage=library/foo&tag=latest"
     "/images/create?fromImage=library/foo&tag=latest" "library/foo" "latest"
     ⟨"library/foo", .bare⟩ ⟨"library/foo", .tagged "latest"⟩ false
     ["r1.example.com", "r2.example.com"]
     rfl rfl rfl rfl (by decide) rfl rfl (by decide) rfl⟩

/-- Claim C10 (confirmed): on every request recognized as a pull with a
parseable reference (tag or digest attached successfully), the registry
list is fetched before qualification, and a failing fetch denies with the
fetch error — even for a fully qualified reference. -/
theorem c10_registry_fetch_denies (cfg : conf) (o : Oracles)
    (uri decoded res2 res4 : String) (ref0 ref1 : NamedRef) (b : Bool) (e : String)
    (hmatch : pullMatchString uri = true)
    (hdec : queryUnescape uri = some decoded)
    (hfind : pullFindSubmatch decoded = some (res2, res4))
    (hparse : parseNamed res2 = .ok ref0)
    (hres4 : res4 ≠ "")
    (hatt : attachSuffix ref0 res4 = .ok (ref1, b))
    (hregs : o.registries = .error e) :
    authZReq cfg o ⟨"POST", uri⟩ = (mkErr e, [.getRegistries]) := by
  unfold authZReq
  simp [hmatch, hdec, hfind, hparse, hres4, hatt, hregs]

/-- Witness for C10: a fully qualified pull of `r1.example.com/foo:latest`
is denied when the registry-list fetch fails, and the trace holds only the
registry fetch. -/
theorem c10_witness :
    isReferenceFullyQualified ⟨"r1.example.com/foo", .tagged "latest"⟩ = true ∧
    authZReq cfgManual oRegFail
        ⟨"POST", "/images/create?fromImage=r1.example.com/foo&tag=latest"⟩ =
      (mkErr "engine info unavailable", [.getRegistries]) :=
  ⟨by decide,
   c10_registry_fetch_denies cfgManual oRegFail
     "/images/create?fromImage=r1.example.com/foo&tag=latest"
     "/images/create?fromImage=r1.example.com/foo&tag=latest"
     "r1.example.com/foo" "latest" ⟨"r1.example.com/foo", .bare⟩
     ⟨"r1.example.com/foo", .tagged "latest"⟩ false "engine info unavailable"
     rfl rfl rfl rfl (by decide) rfl rfl⟩

/-- Claim C6 (counterexample): the pull-candidacy decision is NOT made on
the percent-decoded URI.  The URI `%2Fimages%2Fcreate?fromImage=foo`
matches the pull pattern only after percent-decoding, yet the request is
passed through (Allow, no collaborator calls) instead of being treated as
a pull candidate (a pull candidate with `fromImage=foo` and no tag would
be denied). -/
theorem c6_counterexample :
    queryUnescape "%2Fimages%2Fcreate?fromImage=foo" =
      some "/images/create?fromImage=foo" ∧
    pullMatchString "/images/create?fromImage=foo" = true ∧
    pullMatchString "%2Fimages%2Fcreate?fromImage=foo" = false ∧
    authZReq cfgManual oAllowA ⟨"POST", "%2Fimages%2Fcreate?fromImage=foo"⟩ =
      (allowResp, []) := by
  refine ⟨by decide, by decide, by decide, ?_⟩
  rfl

/-- Claim C6 (amended): for every POST request, pull-candidacy is decided
on the raw request URI — a raw URI that does not match the pattern is
allowed through unconditionally — and for a raw candidate a
percent-decoding failure yields a Deny for that request. -/
theorem c6_raw_candidacy :
    (∀ (cfg : conf) (o : Oracles) (uri : String), pullMatchString uri = false →
      authZReq cfg o ⟨"POST", uri⟩ = (allowResp, [])) ∧
    (∀ (cfg : conf) (o : Oracles) (uri : String), pullMatchString uri = true →
      queryUnescape uri = none →
      authZReq cfg o ⟨"POST", uri⟩ = (mkErr "invalid URL escape", [])) := by
  constructor
  · intro cfg o uri h
    unfold authZReq
    rw [if_neg]
    rintro ⟨_, h2⟩
    rw [h] at h2
    exact absurd h2 (by simp)
  · intro cfg o uri h hdec
    unfold authZReq
    simp [h, hdec]

/-- Witness for C6 (amended): the raw non-candidate from the
counterexample passes through, and the raw candidate
`/images/create?fromImage=%zz` (an invalid escape) is denied. -/
theorem c6_witness :
    authZReq cfgAuto oAllowA ⟨"POST", "%2Fimages%2Fcreate?fromImage=foo"⟩ =
      (allowResp, []) ∧
    authZReq cfgAuto oAllowA ⟨"POST", "/images/create?fromImage=%zz"⟩ =
      (mkErr "invalid URL escape", []) :=
  ⟨c6_raw_candidacy.1 cfgAuto oAllowA "%2Fimages%2Fcreate?fromImage=foo" (by decide),
   c6_raw_candidacy.2 cfgAuto oAllowA "/images/create?fromImage=%zz" (by decide) (by decide)⟩

/-- Claim C7 (counterexample): a recognized pull of the unqualified
name-only reference `rhel/rhel7` (no tag token) with registry list
`[redhat.io]` does not qualify the reference at all: it is denied with the
all-tags message before the registry list is even fetched, so no reference
`redhat.io/rhel/rhel7:latest` is ever produced. -/
theorem c7_counterexample :
    authZReq cfgManual oRedhat ⟨"POST", "/images/create?fromImage=rhel/rhel7"⟩ =
      (mkErr "unable to verify all tags for the given image", []) := by
  rfl

/-- Claim C7 (amended): a recognized pull of `rhel/rhel7` with no tag
token is denied before qualification; when the tag token `latest` is
supplied explicitly, the tag is attached before qualification and the
policy evaluator receives `redhat.io/rhel/rhel7:latest` (tag attachment
precedes qualification, not the other way around). -/
theorem c7_amended (cfg : conf) (o : Oracles)
    (hregs : o.registries = .ok ["redhat.io"]) :
    authZReq cfg o ⟨"POST", "/images/create?fromImage=rhel/rhel7"⟩ =
      (mkErr "unable to verify all tags for the given image", []) ∧
    ((authZReq cfg o ⟨"POST", "/images/create?fromImage=rhel/rhel7&tag=latest"⟩).2).take 2 =
      [Event.getRegistries, Event.evaluate ⟨"redhat.io/rhel/rhel7", .tagged "latest"⟩] := by
  constructor
  · rfl
  · rw [authZReq_run cfg o "/images/create?fromImage=rhel/rhel7&tag=latest"
      "/images/create?fromImage=rhel/rhel7&tag=latest" "rhel/rhel7" "latest"
      ⟨"rhel/rhel7", .bare⟩ ⟨"rhel/rhel7", .tagged "latest"⟩ false ["redhat.io"]
      ⟨"redhat.io/rhel/rhel7", .tagged "latest"⟩
      rfl rfl rfl rfl (by decide) rfl hregs rfl]
    rfl

/-- Witness for C7 (amended): the amended claim at the concrete oracles
with registry list `[redhat.io]`. -/
theorem c7_witness :
    authZReq cfgManual oRedhat ⟨"POST", "/images/create?fromImage=rhel/rhel7"⟩ =
      (mkErr "unable to verify all tags for the given image", []) ∧
    ((authZReq cfgManual oRedhat
        ⟨"POST", "/images/create?fromImage=rhel/rhel7&tag=latest"⟩).2).take 2 =
      [Event.getRegistries, Event.evaluate ⟨"redhat.io/rhel/rhel7", .tagged "latest"⟩] :=
  c7_amended cfgManual oRedhat rfl

/-- Recognizer for pull events in a trace. -/
def isPullEvent : Event → Bool
  | .pull _ => true
  | _ => false

/-- Claim C3 (counterexample): a recognized tag-only pull (the tag token
`v1` is a tag, not a digest) where the policy evaluator reports allowed
with digest `shaA` and AutoPull is enabled, whose `fromImage` token itself
carries a digest: re-parsing `fromImage@computedDigest` fails, the request
is denied with the parse error, and the pull call is never invoked — so
pull and retag are not "each invoked exactly once". -/
theorem c3_counterexample :
    authZReq cfgAuto oAllowA
        ⟨"POST", "/images/create?fromImage=foo@" ++ shaA ++ "&tag=v1"⟩ =
      (mkErr "invalid reference format",
        [.getRegistries, .evaluate ⟨"foo", .tagged "v1"⟩, .fetchDigest ⟨"foo", .tagged "v1"⟩]) ∧
    ((authZReq cfgAuto oAllowA
        ⟨"POST", "/images/create?fromImage=foo@" ++ shaA ++ "&tag=v1"⟩).2).countP isPullEvent = 0 := by
  refine ⟨?_, ?_⟩ <;> rfl

/-- Claim C3 (amended): for every recognized tag-only pull where the
policy evaluation reports allowed with digest `dgst` and AutoPull is true,
provided the reconstructed reference `fromImage@dgst` parses (true
whenever the `fromImage` token itself carries no digest): the pull call
occurs exactly once, the verdict is Allow iff pull, stream read and retag
all succeed, a pull failure denies with that error (no retag call), a
stream-read failure denies with that error, a retag failure denies with
that error, and the retag call is strictly after the pull call. -/
theorem c3_autopull_sequence (cfg : conf) (o : Oracles)
    (uri decoded res2 res4 : String) (ref0 ref1 : NamedRef)
    (regs : List String) (ref : NamedRef) (dgst : String) (newRef : NamedRef)
    (s tgt : String)
    (hmatch : pullMatchString uri = true)
    (hdec : queryUnescape uri = some decoded)
    (hfind : pullFindSubmatch decoded = some (res2, res4))
    (hparse : parseNamed res2 = .ok ref0)
    (hres4 : res4 ≠ "")
    (hatt : attachSuffix ref0 res4 = .ok (ref1, false))
    (hregs : o.registries = .ok regs)
    (hqual : qualifyPhase regs (if isNameOnly ref1 then withDefaultTag ref1 else ref1) = .ok ref)
    (hap : cfg.AutoPull = true)
    (hall : o.isAllowed ref = .ok true)
    (hd : o.manifestDigest ref = .ok dgst)
    (hnew : parseNamed (res2 ++ "@" ++ dgst) = .ok newRef)
    (hs : s = refString newRef)
    (htgt : tgt = res2 ++ ":" ++ res4) :
    ((authZReq cfg o ⟨"POST", uri⟩).2.countP isPullEvent = 1) ∧
    ((authZReq cfg o ⟨"POST", uri⟩).1 = allowResp ↔
      (o.imagePull s = .ok () ∧ o.readAll s = .ok () ∧ o.imageTag s tgt = .ok ())) ∧
    (∀ e, o.imagePull s = .error e →
      authZReq cfg o ⟨"POST", uri⟩ =
        (mkErr e, [.getRegistries, .evaluate ref, .fetchDigest ref, .pull s])) ∧
    (∀ e, o.imagePull s = .ok () → o.readAll s = .error e →
      authZReq cfg o ⟨"POST", uri⟩ =
        (mkErr e, [.getRegistries, .evaluate ref, .fetchDigest ref, .pull s, .readStream s])) ∧
    (∀ e, o.imagePull s = .ok () → o.readAll s = .ok () → o.imageTag s tgt = .error e →
      authZReq cfg o ⟨"POST", uri⟩ =
        (mkErr e,
          [.getRegistries, .evaluate ref, .fetchDigest ref, .pull s, .readStream s, .tag s tgt])) ∧
    (o.imagePull s = .ok () → o.readAll s = .ok () → o.imageTag s tgt = .ok () →
      authZReq cfg o ⟨"POST", uri⟩ =
        (allowResp,
          [.getRegistries, .evaluate ref, .fetchDigest ref, .pull s, .readStream s, .tag s tgt])) := by
  subst hs
  subst htgt
  have hrun := authZReq_run cfg o uri decoded res2 res4 ref0 ref1 false regs ref
    hmatch hdec hfind hparse hres4 hatt hregs hqual
  rcases hp : o.imagePull (refString newRef) with e0 | ⟨⟩
  · have hfull : authZReq cfg o ⟨"POST", uri⟩ =
        (mkErr e0, [.getRegistries, .evaluate ref, .fetchDigest ref, .pull (refString newRef)]) := by
      rw [hrun]; unfold evalPhase reconcile; simp [hall, hd, hap, hnew, hp]
    refine ⟨?_, ?_, ?_, ?_, ?_, ?_⟩ <;>
      simp [hfull, hp, mkErr, allowResp, isPullEvent]
  · rcases hr : o.readAll (refString newRef) with e1 | ⟨⟩
    · have hfull : authZReq cfg o ⟨"POST", uri⟩ =
          (mkErr e1, [.getRegistries, .evaluate ref, .fetchDigest ref,
            .pull (refString newRef), .readStream (refString newRef)]) := by
        rw [hrun]; unfold evalPhase reconcile; simp [hall, hd, hap, hnew, hp, hr]
      refine ⟨?_, ?_, ?_, ?_, ?_, ?_⟩ <;>
        simp [hfull, hp, hr, mkErr, allowResp, isPullEvent]
    · rcases ht : o.imageTag (refString newRef) (res2 ++ ":" ++ res4) with e2 | ⟨⟩
      · have hfull : authZReq cfg o ⟨"POST", uri⟩ =
            (mkErr e2, [.getRegistries, .evaluate ref, .fetchDigest ref,
              .pull (refString newRef), .readStream (refString newRef),
              .tag (refString newRef) (res2 ++ ":" ++ res4)]) := by
          rw [hrun]; unfold evalPhase reconcile; simp [hall, hd, hap, hnew, hp, hr, ht]
        refine ⟨?_, ?_, ?_, ?_, ?_, ?_⟩ <;>
          simp [hfull, hp, hr, ht, mkErr, allowResp, isPullEvent]
      · have hfull : authZReq cfg o ⟨"POST", uri⟩ =
            (allowResp, [.getRegistries, .evaluate ref, .fetchDigest ref,
              .pull (refString newRef), .readStream (refString newRef),
              .tag (refString newRef) (res2 ++ ":" ++ res4)]) := by
          rw [hrun]; unfold evalPhase reconcile; simp [hall, hd, hap, hnew, hp, hr, ht]
        refine ⟨?_, ?_, ?_, ?_, ?_, ?_⟩ <;>
          simp [hfull, hp, hr, ht, mkErr, allowResp, isPullEvent]

/-- Witness for C3 (amended): an auto-pull run on `foo:v1` that succeeds:
exactly one pull, then the retag, then Allow. -/
theorem c3_witness :
    authZReq cfgAuto oAllowA ⟨"POST", "/images/create?fromImage=foo&tag=v1"⟩ =
      (allowResp,
        [.getRegistries, .evaluate ⟨"foo", .tagged "v1"⟩, .fetchDigest ⟨"foo", .tagged "v1"⟩,
         .pull ("foo@" ++ shaA), .readStream ("foo@" ++ shaA),
         .tag ("foo@" ++ shaA) "foo:v1"]) ∧
    (authZReq cfgAuto oAllowA
      ⟨"POST", "/images/create?fromImage=foo&tag=v1"⟩).2.countP isPullEvent = 1 := by
  have h := c3_autopull_sequence cfgAuto oAllowA
    "/images/create?fromImage=foo&tag=v1" "/images/create?fromImage=foo&tag=v1"
    "foo" "v1" ⟨"foo", .bare⟩ ⟨"foo", .tagged "v1"⟩ [] ⟨"foo", .tagged "v1"⟩
    shaA ⟨"foo", .digested shaA⟩ ("foo@" ++ shaA) "foo:v1"
    rfl rfl rfl rfl (by decide) rfl rfl rfl rfl rfl rfl rfl rfl rfl
  exact ⟨h.2.2.2.2.2 rfl rfl rfl, h.1⟩

theorem isValidHostname_ne_empty (h : String) (hv : isValidHostname h = true) : h ≠ "" := by
  intro he
  subst he
  exact absurd hv (by decide)

theorem splitHostname_none (nm : String) (h : splitFirst '/' nm.toList = none) :
    splitHostname nm = ("", nm) := by
  unfold splitHostname
  rw [h]

theorem splitHostname_some (nm : String) (a b : List Char)
    (h : splitFirst '/' nm.toList = some (a, b)) :
    splitHostname nm = (String.mk a, String.mk b) := by
  unfold splitHostname
  rw [h]

theorem splitReposName_of_fq (ref : NamedRef)
    (hvn : validName ref.name = true)
    (hfq : isReferenceFullyQualified ref = true) :
    ∃ i r, splitFirst '/' ref.name.toList = some (i, r) ∧
      splitReposName ref = (String.mk i, .ok ⟨String.mk r, .bare⟩) := by
  cases hsf : splitFirst '/' ref.name.toList with
  | none =>
    exfalso
    have hsr : splitReposName ref = ("", .ok ref) := by
      unfold splitReposName
      rw [splitHostname_none ref.name hsf]
      rw [show isValidHostname (("", ref.name) : String × String).1 = false from rfl]
      simp
    unfold isReferenceFullyQualified at hfq
    rw [hsr] at hfq
    exact absurd hfq (by simp)
  | some p =>
    obtain ⟨a, b⟩ := p
    have hsh := splitHostname_some ref.name a b hsf
    have hlist : ref.name.toList = a ++ '/' :: b := splitFirst_eq '/' _ a b hsf
    by_cases hsv : isValidHostname (String.mk a) = true
    · refine ⟨a, b, rfl, ?_⟩
      have hvrem : validName (String.mk b) = true := by
        unfold validName at hvn ⊢
        rw [toList_mk]
        rw [hlist] at hvn
        exact goComp_tail b a false hvn
      unfold splitReposName
      rw [hsh]
      have h1 : ((String.mk a, String.mk b) : String × String).1 = String.mk a := rfl
      have h2 : ((String.mk a, String.mk b) : String × String).2 = String.mk b := rfl
      rw [h1, h2, if_pos hsv]
      unfold withName
      rw [if_pos hvrem]
    · exfalso
      have hsr : splitReposName ref = ("", .ok ref) := by
        unfold splitReposName
        rw [hsh]
        have h1 : ((String.mk a, String.mk b) : String × String).1 = String.mk a := rfl
        rw [h1, if_neg hsv]
      unfold isReferenceFullyQualified at hfq
      rw [hsr] at hfq
      exact absurd hfq (by simp)

/-- Claim C8 (counterexample): `r1.example.com/foo` is fully qualified,
yet qualifying it with the default host `myreg` (configured first
registry, not a syntactically valid hostname) does not return the
reference unchanged: it fails with an `Invalid hostname` error, which the
pipeline turns into a deny. -/
theorem c8_counterexample :
    isReferenceFullyQualified ⟨"r1.example.com/foo", .bare⟩ = true ∧
    qualifyUnqualifiedReference ⟨"r1.example.com/foo", .bare⟩ "myreg" =
      .error "Invalid hostname \"myreg\"" := by
  refine ⟨by decide, ?_⟩
  rfl

/-- Claim C8 (amended): for every grammatically valid reference that is
already fully qualified (its leading path segment is a syntactically
valid hostname), qualifying it with any default host that is itself a
syntactically valid hostname returns the reference unchanged; an invalid
default host instead fails with an error (so in no case is a fully
qualified reference rewritten). -/
theorem c8_qualify_fq_valid_host (ref : NamedRef) (h : String)
    (hvn : validName ref.name = true)
    (hvh : isValidHostname h = true)
    (hfq : isReferenceFullyQualified ref = true) :
    qualifyUnqualifiedReference ref h = .ok ref := by
  obtain ⟨i, r, hsf, hsr⟩ := splitReposName_of_fq ref hvn hfq
  have hine : String.mk i ≠ "" := by
    have : (splitReposName ref).1 ≠ "" := by
      unfold isReferenceFullyQualified at hfq
      exact bne_iff_ne.mp hfq
    rw [hsr] at this
    exact this
  unfold qualifyUnqualifiedReference
  rw [hvh]
  simp only [Bool.not_true, Bool.false_eq_true, if_false]
  rw [hsr]
  simp [beq_eq_false_iff_ne.mpr hine]

/-- Witness for C8 (amended): qualifying the fully qualified
`r1.example.com/foo` with the valid host `redhat.io` returns it
unchanged. -/
theorem c8_witness :
    validName "r1.example.com/foo" = true ∧
    isValidHostname "redhat.io" = true ∧
    isReferenceFullyQualified ⟨"r1.example.com/foo", .bare⟩ = true ∧
    qualifyUnqualifiedReference ⟨"r1.example.com/foo", .bare⟩ "redhat.io" =
      .ok ⟨"r1.example.com/foo", .bare⟩ :=
  ⟨by decide, by decide, by decide,
   c8_qualify_fq_valid_host ⟨"r1.example.com/foo", .bare⟩ "redhat.io"
     (by decide) (by decide) (by decide)⟩

/-- Claim C9 (confirmed): for every unqualified reference actually
rewritten by qualification with a host, the output is exactly the input
with the host prepended to the repository path and the same decoration:
a tag is preserved as the same tag, a digest as the same digest, and
nothing else changes. -/
theorem c9_substitute_preserves (ref : NamedRef) (h : String) (out : NamedRef)
    (hnq : isReferenceFullyQualified ref = false)
    (hq : qualifyUnqualifiedReference ref h = .ok out) :
    out.name = h ++ "/" ++ ref.name ∧ out.suffix = ref.suffix := by
  unfold qualifyUnqualifiedReference at hq
  by_cases hvh : isValidHostname h = true
  · rw [hvh] at hq
    simp only [Bool.not_true, Bool.false_eq_true, if_false] at hq
    have hsr : splitReposName ref = ("", .ok ref) := by
      unfold isReferenceFullyQualified at hnq
      unfold splitReposName at hnq ⊢
      by_cases hsv : isValidHostname (splitHostname ref.name).1 = true
      · rw [if_pos hsv] at hnq
        have hemp : (splitHostname ref.name).1 = "" := by
          simpa using hnq
        rw [hemp] at hsv
        exact absurd hsv (by decide)
      · rw [if_neg hsv]
    rw [hsr] at hq
    simp only [beq_self_eq_true, if_true] at hq
    unfold substituteReferenceName at hq
    split at hq
    · exact absurd hq (by simp)
    next reposNameRef heq =>
      have hbase : reposNameRef = ⟨h ++ "/" ++ ref.name, .bare⟩ := by
        unfold withName at heq
        split at heq
        · exact (Except.ok.inj heq).symm
        · exact absurd heq (by simp)
      subst hbase
      split at hq
      next t heq2 =>
        unfold withTag at hq
        split at hq
        · have hout := Except.ok.inj hq
          rw [← hout]
          exact ⟨rfl, heq2.symm⟩
        · exact absurd hq (by simp)
      next d heq2 =>
        unfold withDigest at hq
        split at hq
        · have hout := Except.ok.inj hq
          rw [← hout]
          exact ⟨rfl, heq2.symm⟩
        · exact absurd hq (by simp)
      next heq2 =>
        have hout := Except.ok.inj hq
        rw [← hout]
        exact ⟨rfl, heq2.symm⟩
  · rw [eq_false_of_ne_true hvh] at hq
    simp only [Bool.not_false, if_true] at hq
    exact absurd hq (by simp)

/-- Witness for C9: qualifying the unqualified tagged reference
`rhel/rhel7:v1` with `redhat.io` prepends the host and preserves the
tag. -/
theorem c9_witness :
    isReferenceFullyQualified ⟨"rhel/rhel7", .tagged "v1"⟩ = false ∧
    qualifyUnqualifiedReference ⟨"rhel/rhel7", .tagged "v1"⟩ "redhat.io" =
      .ok ⟨"redhat.io/rhel/rhel7", .tagged "v1"⟩ ∧
    (⟨"redhat.io/rhel/rhel7", .tagged "v1"⟩ : NamedRef).name =
      "redhat.io" ++ "/" ++ "rhel/rhel7" ∧
    (⟨"redhat.io/rhel/rhel7", .tagged "v1"⟩ : NamedRef).suffix =
      (⟨"rhel/rhel7", .tagged "v1"⟩ : NamedRef).suffix :=
  ⟨by decide, by rfl,
   c9_substitute_preserves ⟨"rhel/rhel7", .tagged "v1"⟩ "redhat.io"
     ⟨"redhat.io/rhel/rhel7", .tagged "v1"⟩ (by decide) (by rfl)⟩
